import Mathlib

/-!
Verification of the sales-insights engine (lib/insights.js).

The JavaScript source is shallowly embedded: JS numbers are modelled as exact
rationals extended with NaN and the two infinities, JS Map and Set become
insertion-ordered association lists, and calendar arithmetic of the Date
built-ins is modelled over the proleptic Gregorian calendar (times of day and
time zones play no role: the engine only ever constructs local midnights and
reads calendar fields back).
-/

namespace Sales

/-- Model of a JavaScript runtime value as the engine observes it: a finite
number (an exact rational), NaN, the infinities, null, or undefined.
Strings and objects never reach the numeric row fields in a way the verified
claims depend on, so they are not part of this universe. -/
inductive JSVal where
  | num (q : ℚ)
  | nan
  | inf
  | ninf
  | null
  | undef
deriving DecidableEq, Repr

/-- Model of the JS nullish test used by the ?? operator. -/
def JSVal.isNullish : JSVal → Bool
  | .null => true
  | .undef => true
  | _ => false

/-- Model of Number.isFinite. -/
def JSVal.isFinite : JSVal → Bool
  | .num _ => true
  | _ => false

/-- Model of the ToNumber coercion on this value universe:
Number(null) is 0 and Number(undefined) is NaN. -/
def toNumber : JSVal → JSVal
  | .null => .num 0
  | .undef => .nan
  | v => v

/-- The finite value of a JS number, 0 for every non-number. -/
def JSVal.finVal : JSVal → ℚ
  | .num q => q
  | _ => 0

/-- JS subtraction on numbers (IEEE rules for NaN and infinities;
exact rationals stand in for doubles). -/
def jsSub (a b : JSVal) : JSVal :=
  match toNumber a, toNumber b with
  | .num x, .num y => .num (x - y)
  | .inf, .inf => .nan
  | .inf, .ninf => .inf
  | .inf, .num _ => .inf
  | .ninf, .ninf => .nan
  | .ninf, .inf => .ninf
  | .ninf, .num _ => .ninf
  | .num _, .inf => .ninf
  | .num _, .ninf => .inf
  | _, _ => .nan

/-- JS division on numbers. Signed zeros are outside the rational model, so
division of an infinity by zero uses the sign of positive zero. -/
def jsDiv (a b : JSVal) : JSVal :=
  match toNumber a, toNumber b with
  | .num x, .num y =>
    if y = 0 then (if x = 0 then .nan else if 0 < x then .inf else .ninf)
    else .num (x / y)
  | .inf, .num y => if 0 ≤ y then .inf else .ninf
  | .ninf, .num y => if 0 ≤ y then .ninf else .inf
  | .num _, .inf => .num 0
  | .num _, .ninf => .num 0
  | .inf, .inf => .nan
  | .inf, .ninf => .nan
  | .ninf, .inf => .nan
  | .ninf, .ninf => .nan
  | _, _ => .nan

/-- JS multiplication on numbers. -/
def jsMul (a b : JSVal) : JSVal :=
  match toNumber a, toNumber b with
  | .num x, .num y => .num (x * y)
  | .inf, .num y => if y = 0 then .nan else if 0 < y then .inf else .ninf
  | .num x, .inf => if x = 0 then .nan else if 0 < x then .inf else .ninf
  | .ninf, .num y => if y = 0 then .nan else if 0 < y then .ninf else .inf
  | .num x, .ninf => if x = 0 then .nan else if 0 < x then .ninf else .inf
  | .inf, .inf => .inf
  | .inf, .ninf => .ninf
  | .ninf, .inf => .ninf
  | .ninf, .ninf => .inf
  | _, _ => .nan

/-- Math.round on a rational: JS rounds ties toward positive infinity,
which on exact inputs is the floor of x + 1/2. -/
def jsRoundQ (q : ℚ) : ℤ := ⌊q + 1/2⌋

/-- Math.round on a JS value (NaN and infinities pass through). -/
def jsRound (v : JSVal) : JSVal :=
  match toNumber v with
  | .num q => .num (jsRoundQ q : ℚ)
  | w => w

/-- Math.abs on a JS value. -/
def jsAbs (v : JSVal) : JSVal :=
  match toNumber v with
  | .num q => .num |q|
  | .ninf => .inf
  | w => w

/-- The JS comparison v > 0 (false on NaN). -/
def jsGtZero (v : JSVal) : Bool :=
  match toNumber v with
  | .num q => decide (0 < q)
  | .inf => true
  | _ => false

/-- The JS comparison v < 0 (false on NaN). -/
def jsLtZero (v : JSVal) : Bool :=
  match toNumber v with
  | .num q => decide (q < 0)
  | .ninf => true
  | _ => false

/-- Decimal digit value of a character, as matched by the regex class \d. -/
def toDigit (c : Char) : Option Nat :=
  let n := c.toNat
  if 48 ≤ n ∧ n ≤ 57 then some (n - 48) else none

/-- The decimal digit character for a value below ten. -/
def digitChar (k : Nat) : Char := Char.ofNat (48 + k)

/-- The set of characters removed by String.prototype.trim (JS WhiteSpace
and LineTerminator code points). -/
def isJSWhitespace (c : Char) : Bool :=
  c = ' ' ∨ c = '\t' ∨ c = '\n' ∨ c = '\r' ∨ c = '\x0b' ∨ c = '\x0c' ∨
  c = '\u00A0' ∨ c = '\uFEFF' ∨ c = '\u2028' ∨ c = '\u2029'

/-- Model of String.prototype.trim on a character list. -/
def jsTrim (l : List Char) : List Char :=
  ((l.dropWhile isJSWhitespace).reverse.dropWhile isJSWhitespace).reverse

/-- String.prototype.trim as a string-to-string function. -/
def jsTrimStr (s : String) : String := String.mk (jsTrim s.data)

/-- String(n).padStart(2, "0") for a natural number. -/
def pad2 (n : Nat) : String := if n < 10 then "0" ++ toString n else toString n

/-- Gregorian leap-year test. -/
def isLeap (y : Nat) : Bool := y % 4 = 0 ∧ (y % 100 ≠ 0 ∨ y % 400 = 0)

/-- Number of days of a month (1 to 12) in a given year. -/
def daysInMonth (y : Nat) : Nat → Nat
  | 1 => 31
  | 2 => if isLeap y then 29 else 28
  | 3 => 31
  | 4 => 30
  | 5 => 31
  | 6 => 30
  | 7 => 31
  | 8 => 31
  | 9 => 30
  | 10 => 31
  | 11 => 30
  | 12 => 31
  | _ => 30

/-- A calendar date in normalized form: month 1 to 12, day 1 to the length
of the month. The Date objects the engine builds are all local midnights, so
this triple is a complete model of them. -/
structure CivilDate where
  year : Nat
  month : Nat
  day : Nat
deriving DecidableEq, Repr

/-- ECMAScript MakeFullYear: the Date constructor maps year arguments
0 to 99 to 1900 + year. -/
def effYear (y : Nat) : Nat := if y < 100 then 1900 + y else y

/-- Model of new Date(year, month0, day) for month0 in 0..11 and day in
1..31, as the engine calls it: the day overflow of MakeDay spills into the
following month (December has 31 days, so the year never wraps here). -/
def mkJSDate (y m0 d : Nat) : CivilDate :=
  let yy := effYear y
  let m := m0 + 1
  if d ≤ daysInMonth yy m then ⟨yy, m, d⟩
  else if m = 12 then ⟨yy + 1, 1, d - 31⟩
  else ⟨yy, m + 1, d - daysInMonth yy m⟩

/-- Days from 0000-01-01 to the start of year y (proleptic Gregorian,
year 0 is a leap year). -/
def daysBeforeYear (y : Nat) : Nat :=
  365 * y + (y + 3) / 4 - (y + 99) / 100 + (y + 399) / 400

/-- Days from the start of year y to the start of month m in year y. -/
def daysBeforeMonth (y m : Nat) : Nat :=
  ((List.range (m - 1)).map (fun k => daysInMonth y (k + 1))).sum

/-- Day count of a date from the epoch 0000-01-01. -/
def dayNumber (c : CivilDate) : Nat :=
  daysBeforeYear c.year + daysBeforeMonth c.year c.month + (c.day - 1)

/-- Model of Date.prototype.getDay: 0 = Sunday .. 6 = Saturday.
0000-01-01 of the proleptic Gregorian calendar is a Saturday. -/
def jsGetDay (c : CivilDate) : Nat := (dayNumber c + 6) % 7

/-- Model of d.setDate(n): replace the day-of-month by n and normalize.
Total for the arguments the engine produces (n between -5 and 32). -/
def setDate (c : CivilDate) (n : ℤ) : CivilDate :=
  if 1 ≤ n then
    let d := n.toNat
    if d ≤ daysInMonth c.year c.month then ⟨c.year, c.month, d⟩
    else if c.month = 12 then ⟨c.year + 1, 1, d - 31⟩
    else ⟨c.year, c.month + 1, d - daysInMonth c.year c.month⟩
  else
    let py := if c.month = 1 then c.year - 1 else c.year
    let pm := if c.month = 1 then 12 else c.month - 1
    ⟨py, pm, (daysInMonth py pm + n).toNat⟩

/-- Embeds getISOWeekKey: move the date back by getDay() - 1 days via
setDate (the source comment says Monday, but for a Sunday this lands on the
following Monday, not the preceding one) and format as YYYY-MM-DD.
The setHours(0,0,0,0) call of the source is a no-op in this date-only model. -/
def getISOWeekKey (c : CivilDate) : String :=
  let d2 := setDate c ((c.day : ℤ) - (jsGetDay c : ℤ) + 1)
  toString d2.year ++ "-" ++ pad2 d2.month ++ "-" ++ pad2 d2.day

/-- The structure returned by parseDate. The field date is the Date object
(as a civil triple); year, month and day are the integers parsed from the
string, not re-read from the Date object. -/
structure ParsedDate where
  year : Nat
  month : Nat
  day : Nat
  date : CivilDate
  dayOfWeek : Nat
  weekKey : String
deriving DecidableEq, Repr

/-- Matches the regex for DD-MM-YYYY and returns (day, month, year). -/
def matchDDMMYYYY (l : List Char) : Option (Nat × Nat × Nat) :=
  match l with
  | [d1, d2, h1, m1, m2, h2, y1, y2, y3, y4] =>
    if h1 = '-' ∧ h2 = '-' then
      match toDigit d1, toDigit d2, toDigit m1, toDigit m2,
            toDigit y1, toDigit y2, toDigit y3, toDigit y4 with
      | some a, some b, some c, some d, some e, some f, some g, some h =>
        some (10 * a + b, 10 * c + d, 1000 * e + 100 * f + 10 * g + h)
      | _, _, _, _, _, _, _, _ => none
    else none
  | _ => none

/-- Matches the regex for YYYY-MM-DD and returns (year, month, day). -/
def matchYYYYMMDD (l : List Char) : Option (Nat × Nat × Nat) :=
  match l with
  | [y1, y2, y3, y4, h1, m1, m2, h2, d1, d2] =>
    if h1 = '-' ∧ h2 = '-' then
      match toDigit y1, toDigit y2, toDigit y3, toDigit y4,
            toDigit m1, toDigit m2, toDigit d1, toDigit d2 with
      | some e, some f, some g, some h, some a, some b, some c, some d =>
        some (1000 * e + 100 * f + 10 * g + h, 10 * a + b, 10 * c + d)
      | _, _, _, _, _, _, _, _ => none
    else none
  | _ => none

/-- The shared validation and construction tail of both parseDate branches:
range checks, the calendar round-trip check through new Date, and the
result record. -/
def validateDMY (year month day : Nat) : Option ParsedDate :=
  if month < 1 ∨ 12 < month ∨ day < 1 ∨ 31 < day then none
  else
    let c := mkJSDate year (month - 1) day
    if c.day = day ∧ c.month - 1 = month - 1 then
      some { year := year, month := month, day := day, date := c,
             dayOfWeek := jsGetDay c, weekKey := getISOWeekKey c }
    else none

/-- Embeds parseDate: trim, match one of the two formats, validate.
Total by construction (the source returns null on every failure path and
never throws). -/
def parseDate (s : String) : Option ParsedDate :=
  if s = "" then none
  else
    let t := jsTrim s.data
    match matchDDMMYYYY t with
    | some (d, m, y) => validateDMY y m d
    | none =>
      match matchYYYYMMDD t with
      | some (y, m, d) => validateDMY y m d
      | none => none

/-- A sales row as the engine reads it. date models a string field (a missing
or non-string date behaves exactly like an unparsable one); product and
category model string-or-absent fields (the ?? fallback treats null and
undefined alike there, and only presence and content are observable);
the numeric fields carry arbitrary JS values. -/
structure Row where
  date : String
  product : Option String
  category : Option String
  units : JSVal
  quantity : JSVal
  revenue : JSVal
  price : JSVal
deriving DecidableEq, Repr

/-- Minimum rows to show meaningful insights. -/
def MIN_ROWS_FOR_INSIGHTS : Nat := 3

/-- Concentration risk: warn if the top 3 products account for more than
this share of revenue. -/
def CONCENTRATION_WARN_PCT : ℚ := 60

/-- Anomaly: flag if the change against the average exceeds this ratio. -/
def ANOMALY_CHANGE_THRESHOLD : ℚ := 1/2

/-- Anomaly: or if the value is more than this many standard deviations
from the mean. -/
def ANOMALY_STD_THRESHOLD : ℚ := 2

/-- Embeds getQuantity: row.units ?? row.quantity, coerced with Number,
with 0 for a non-finite result. -/
def getQuantity (row : Row) : ℚ :=
  let q := if row.units.isNullish then row.quantity else row.units
  match toNumber q with
  | .num n => n
  | _ => 0

/-- Embeds getRevenue: a finite row.revenue wins, otherwise
getQuantity(row) * Number(row.price), with 0 for a non-finite price. -/
def getRevenue (row : Row) : ℚ :=
  if row.revenue.isFinite then row.revenue.finVal
  else
    let q := getQuantity row
    match toNumber row.price with
    | .num p => q * p
    | _ => 0

/-- Embeds normCat: String(c ?? "").trim(), then first letter upper case and
the rest lower case (ASCII model of the JS case conversions). -/
def normCat (c : Option String) : String :=
  let s := jsTrimStr (c.getD "")
  match s.data with
  | [] => ""
  | ch :: t => String.mk (ch.toUpper :: t.map Char.toLower)

/-- String(row.product ?? "").trim() with the empty-string fallback of
groupByProduct: the product display name. -/
def productNameOf (row : Row) : String :=
  let s := jsTrimStr (row.product.getD "")
  if s = "" then "Unknown" else s

/-- Lookup in an insertion-ordered association list (JS Map.get). -/
def alGet [DecidableEq κ] (m : List (κ × α)) (k : κ) : Option α :=
  match m with
  | [] => none
  | (k2, v) :: t => if k2 = k then some v else alGet t k

/-- Update in an insertion-ordered association list (JS Map.set): an existing
key keeps its position, a new key is appended. -/
def alSet [DecidableEq κ] (m : List (κ × α)) (k : κ) (v : α) : List (κ × α) :=
  match m with
  | [] => [(k, v)]
  | (k2, w) :: t => if k2 = k then (k, v) :: t else (k2, w) :: alSet t k v

/-- The keys of an association list in insertion order
(JS Array.from(map.keys())). -/
def alKeys [DecidableEq κ] (m : List (κ × α)) : List κ := m.map Prod.fst

/-- The values of an association list in insertion order
(JS Array.from(map.values())). -/
def alValues [DecidableEq κ] (m : List (κ × α)) : List α := m.map Prod.snd

/-- JS Set semantics: insertion-ordered distinct elements, accumulator form
as a Set object is filled. -/
def uniqGo [DecidableEq α] (seen : List α) : List α → List α
  | [] => []
  | x :: xs => if x ∈ seen then uniqGo seen xs else x :: uniqGo (x :: seen) xs

/-- Embeds the uniq helper [...new Set(arr)] of the source. -/
def uniq [DecidableEq α] (l : List α) : List α := uniqGo [] l

/-- Stable insertion of one element: the new element goes after every
existing element le-before-or-tied with it. -/
def insertStable (le : α → α → Bool) (a : α) : List α → List α
  | [] => [a]
  | b :: t => if le b a then b :: insertStable le a t else a :: b :: t

/-- Stable sort, processing elements left to right: the unique result of
Array.prototype.sort under a consistent comparator (the spec requires sort
to be stable). le b a must mean that b may stay before a. -/
def jsSortBy (le : α → α → Bool) (l : List α) : List α :=
  l.foldl (fun acc a => insertStable le a acc) []

/-- String order by code point on the underlying character list: the JS
code-unit order and localeCompare order restricted to the ASCII keys the
engine sorts. -/
def strLE (a b : String) : Bool := decide (¬ b.data < a.data)

/-- Default JS string sort. -/
def jsSortStrings (l : List String) : List String :=
  jsSortBy strLE l

/-- Insert a comma after every third digit; the input is the reversed digit
list and k counts digits already emitted since the last comma. -/
def withCommasAux : List Char → Nat → List Char
  | [], _ => []
  | c :: t, k =>
    if k = 3 then ',' :: c :: withCommasAux t 1 else c :: withCommasAux t (k + 1)

/-- Rounding half away from zero. This is both the rounding the spec
describes for the growth percentage and the default halfExpand rounding of
Intl.NumberFormat used by toLocaleString. -/
def roundHalfAwayFromZero (q : ℚ) : ℤ :=
  if 0 ≤ q then ⌊q + 1/2⌋ else -⌊-q + 1/2⌋

/-- Embeds formatCurrency: toLocaleString with 0 fraction digits, modelled
as the en-US default of integer rounding (halfExpand) plus thousands
grouping by commas. -/
def formatCurrency (q : ℚ) : String :=
  let n := roundHalfAwayFromZero q
  let ds := (toString n.natAbs).data
  (if n < 0 then "-" else "") ++ String.mk ((withCommasAux ds.reverse 0).reverse)

/-- Template-literal rendering of a rational. JS prints the decimal shortest
form of the double; this model prints integers identically and falls back to
a num/den rendering for non-integers. The engine interpolates rationals only
in the duplicate-detection fingerprint, where the string is a mere key,
and for integer-valued percentages. -/
def numStr (q : ℚ) : String :=
  if q.den = 1 then toString q.num else toString q.num ++ "/" ++ toString q.den

/-- Template-literal rendering of a JS value. -/
def jsValStr (v : JSVal) : String :=
  match v with
  | .num q => numStr q
  | .nan => "NaN"
  | .inf => "Infinity"
  | .ninf => "-Infinity"
  | .null => "null"
  | .undef => "undefined"

/-- Template-literal rendering of a string-or-absent field. -/
def optStr (s : Option String) : String :=
  match s with
  | some v => v
  | none => "undefined"

def MONTH_NAMES : List String :=
  ["January", "February", "March", "April", "May", "June",
   "July", "August", "September", "October", "November", "December"]

def DAY_NAMES : List String :=
  ["Sunday", "Monday", "Tuesday", "Wednesday", "Thursday", "Friday", "Saturday"]

/-- Split a character list at dashes (String.prototype.split("-")). -/
def splitDash : List Char → List (List Char)
  | [] => [[]]
  | c :: t =>
    match splitDash t with
    | [] => if c = '-' then [[], []] else [[c]]
    | h :: hs => if c = '-' then [] :: h :: hs else (c :: h) :: hs

/-- Numeric value of a digit list (the value parseInt assigns once the
digits are isolated). -/
def digitsVal (l : List Char) : Nat :=
  l.foldl (fun a c => 10 * a + ((toDigit c).getD 0)) 0

/-- parseInt(s, 10) restricted to the nonnegative case: parses the leading
run of digits, none when the string does not start with a digit. -/
def jsParseIntDigits (l : List Char) : Option Nat :=
  match l with
  | [] => none
  | c :: _ =>
    if (toDigit c).isSome then
      some (digitsVal (l.takeWhile (fun ch => (toDigit ch).isSome)))
    else none

/-- MONTH_NAMES[parseInt(m, 10) - 1] for the month part of a "YYYY-MM" key
(an out-of-range index renders as undefined, as in JS). -/
def monthNameOfKey (k : String) : String :=
  let parts := splitDash k.data
  let ms := parts.getD 1 []
  match jsParseIntDigits ms with
  | some n => MONTH_NAMES.getD (n - 1) "undefined"
  | none => "undefined"

/-- The "YYYY-MM" grouping key of a parsed date (the year is rendered by
the template literal without padding, the month is padded to two digits). -/
def monthKeyOf (p : ParsedDate) : String :=
  toString p.year ++ "-" ++ pad2 p.month

/-- One month or week aggregate: accumulated revenue and quantity. -/
structure Agg where
  revenue : ℚ
  quantity : ℚ
deriving DecidableEq, Repr

/-- One step of the shared aggregation pass of aggregateByMonth and
aggregateByWeek: skip a row with an unparsable date, otherwise accumulate
revenue and quantity under its key. -/
def aggStep (keyOf : ParsedDate → String) (m : List (String × Agg)) (row : Row) :
    List (String × Agg) :=
  match parseDate row.date with
  | none => m
  | some parsed =>
    let key := keyOf parsed
    let cur := (alGet m key).getD ⟨0, 0⟩
    alSet m key ⟨cur.revenue + getRevenue row, cur.quantity + getQuantity row⟩

/-- The shared single pass of aggregateByMonth and aggregateByWeek. -/
def aggregateBy (keyOf : ParsedDate → String) (rows : List Row) :
    List (String × Agg) :=
  rows.foldl (aggStep keyOf) []

/-- Embeds aggregateByMonth. -/
def aggregateByMonth (rows : List Row) : List (String × Agg) :=
  aggregateBy monthKeyOf rows

/-- Embeds aggregateByWeek. -/
def aggregateByWeek (rows : List Row) : List (String × Agg) :=
  aggregateBy (fun p => p.weekKey) rows

/-- One product aggregate. -/
structure ProdAgg where
  product : String
  revenue : ℚ
  quantity : ℚ
  category : String
deriving DecidableEq, Repr

/-- One step of groupByProduct: every row contributes under its product
name (with the Unknown fallback); the category is recorded from the first
occurrence of the product. -/
def prodStep (m : List (String × ProdAgg)) (row : Row) : List (String × ProdAgg) :=
  let name := productNameOf row
  let cur := (alGet m name).getD ⟨name, 0, 0, normCat row.category⟩
  alSet m name
    ⟨name, cur.revenue + getRevenue row, cur.quantity + getQuantity row,
     cur.category⟩

/-- Embeds groupByProduct: keyed by trimmed product name with the Unknown
fallback. -/
def groupByProduct (rows : List Row) : List ProdAgg :=
  alValues (rows.foldl prodStep [])

/-- One category aggregate. -/
structure CatAgg where
  category : String
  revenue : ℚ
  quantity : ℚ
deriving DecidableEq, Repr

/-- Embeds groupByCategory: keyed by normalized category with the
Uncategorized fallback. -/
def groupByCategory (rows : List Row) : List CatAgg :=
  alValues (rows.foldl
    (fun m row =>
      let cat := if normCat row.category = "" then "Uncategorized"
                 else normCat row.category
      let cur := (alGet m cat).getD ⟨cat, 0, 0⟩
      alSet m cat ⟨cat, cur.revenue + getRevenue row, cur.quantity + getQuantity row⟩)
    ([] : List (String × CatAgg)))

/-- Growth direction. -/
inductive Dir where
  | up
  | down
  | flat
deriving DecidableEq, Repr

/-- The record computeGrowth returns. -/
structure Growth where
  pct : JSVal
  direction : Dir
  text : String
deriving DecidableEq, Repr

/-- Embeds computeGrowth. The percentage arithmetic follows the JS number
semantics of the operands; the engine itself always passes finite values. -/
def computeGrowth (current previous : JSVal) : Growth :=
  if ¬ previous.isFinite ∨ previous = .num 0 then
    if jsGtZero current then ⟨.num 100, .up, "up from no prior sales"⟩
    else ⟨.num 0, .flat, "no change"⟩
  else
    let pct := jsRound (jsMul (jsDiv (jsSub current previous) previous) (.num 100))
    if jsGtZero pct then ⟨pct, .up, "up " ++ jsValStr pct ++ "%"⟩
    else if jsLtZero pct then ⟨pct, .down, "down " ++ jsValStr (jsAbs pct) ++ "%"⟩
    else ⟨.num 0, .flat, "flat"⟩

/-- Anomaly type. -/
inductive AType where
  | spike
  | drop
deriving DecidableEq, Repr

/-- One detected anomaly. -/
structure Anomaly where
  period : String
  value : ℚ
  average : ℚ
  type : AType
  message : String
deriving DecidableEq, Repr

/-- pctChange of detectAnomalies: |(value - avg) / avg|, 0 when avg is 0. -/
def pctChangeOf (avg value : ℚ) : ℚ :=
  if avg ≠ 0 then |(value - avg) / avg| else 0

/-- The z >= 2 test of detectAnomalies. The source computes
z = (value - avg) / sqrt(variance) when the standard deviation is positive
and 0 otherwise; over the rationals the comparison z >= 2 is encoded by its
algebraic equivalent: the variance is positive, the deviation is nonnegative
and its square is at least 4 times the variance. -/
def zAtLeast2 (avg variance value : ℚ) : Bool :=
  0 < variance ∧ avg ≤ value ∧
    ANOMALY_STD_THRESHOLD ^ 2 * variance ≤ (value - avg) ^ 2

/-- The z <= -2 test of detectAnomalies, encoded like zAtLeast2. -/
def zAtMostNeg2 (avg variance value : ℚ) : Bool :=
  0 < variance ∧ value ≤ avg ∧
    ANOMALY_STD_THRESHOLD ^ 2 * variance ≤ (value - avg) ^ 2

/-- The spike test of detectAnomalies for one finite value. -/
def spikePred (avg variance value : ℚ) : Bool :=
  avg < value ∧
    (ANOMALY_CHANGE_THRESHOLD ≤ pctChangeOf avg value ∨ zAtLeast2 avg variance value)

/-- The drop test of detectAnomalies for one finite value. -/
def dropPred (avg variance value : ℚ) : Bool :=
  value < avg ∧
    (ANOMALY_CHANGE_THRESHOLD ≤ pctChangeOf avg value ∨ zAtMostNeg2 avg variance value)

/-- Embeds detectAnomalies: filter to finite nonnegative values, compute the
population mean and variance, then scan every entry (skipping non-finite
values) and push a spike or drop record. -/
def detectAnomalies (periodValues : List (String × JSVal)) : List Anomaly :=
  let values := (periodValues.map Prod.snd).filterMap
    (fun v => match v with
      | .num q => if 0 ≤ q then some q else none
      | _ => none)
  if values.length < 2 then []
  else
    let sum := values.foldl (· + ·) 0
    let avg := sum / (values.length : ℚ)
    let variance :=
      (values.foldl (fun acc v => acc + (v - avg) ^ 2) 0) / (values.length : ℚ)
    periodValues.foldl
      (fun results pv =>
        match pv.2 with
        | .num value =>
          let r1 := if spikePred avg variance value then
              results ++ [⟨pv.1, value, avg, .spike, "Unusual spike in " ++ pv.1⟩]
            else results
          if dropPred avg variance value then
            r1 ++ [⟨pv.1, value, avg, .drop, "Unusual drop in " ++ pv.1⟩]
          else r1
        | _ => results)
      []

/-- The composite duplicate-detection fingerprint of the data-quality scan:
date, product, category, resolved quantity and coerced price joined by
dashes via a template literal. -/
def dupKeyOf (r : Row) : String :=
  r.date ++ "-" ++ optStr r.product ++ "-" ++ optStr r.category ++ "-" ++
    numStr (getQuantity r) ++ "-" ++ jsValStr (toNumber r.price)

/-- Embeds the data-quality pass: one scan counting missing dates, invalid
quantities, negative prices and duplicate fingerprints, then one warning
sentence per nonzero count. -/
def dataQualityWarnings (rows : List Row) : List String :=
  let scan := rows.foldl
    (fun (acc : Nat × Nat × Nat × Nat × List String) r =>
      let md := if r.date = "" ∨ parseDate r.date = none then acc.1 + 1 else acc.1
      let q := getQuantity r
      let iq := if q ≤ 0 ∧ (r.units ≠ .undef ∨ r.quantity ≠ .undef)
        then acc.2.1 + 1 else acc.2.1
      let ip := match toNumber r.price with
        | .num p => if p < 0 then acc.2.2.1 + 1 else acc.2.2.1
        | _ => acc.2.2.1
      let key := dupKeyOf r
      let dc := if key ∈ acc.2.2.2.2 then acc.2.2.2.1 + 1 else acc.2.2.2.1
      let seen := if key ∈ acc.2.2.2.2 then acc.2.2.2.2 else acc.2.2.2.2 ++ [key]
      (md, iq, ip, dc, seen))
    (0, 0, 0, 0, [])
  (if 0 < scan.1 then
    [toString scan.1 ++ " row(s) have missing or invalid dates. Check your data."]
   else []) ++
  (if 0 < scan.2.1 then
    [toString scan.2.1 ++ " row(s) have zero or invalid quantity."]
   else []) ++
  (if 0 < scan.2.2.1 then
    [toString scan.2.2.1 ++ " row(s) have negative price."]
   else []) ++
  (if 0 < scan.2.2.2.1 then
    [toString scan.2.2.2.1 ++ " possible duplicate row(s). Review for data entry errors."]
   else [])

/-- Total revenue: rows.reduce over getRevenue. -/
def totalRevenueOf (rows : List Row) : ℚ :=
  rows.foldl (fun s r => s + getRevenue r) 0

/-- Total quantity: rows.reduce over getQuantity. -/
def totalQuantityOf (rows : List Row) : ℚ :=
  rows.foldl (fun s r => s + getQuantity r) 0

/-- The product aggregates sorted by descending revenue (stable, as the sort
comparator b.revenue - a.revenue under the ES2019 stability guarantee). -/
def byRevenueOf (rows : List Row) : List ProdAgg :=
  jsSortBy (fun x y : ProdAgg => decide (y.revenue ≤ x.revenue)) (groupByProduct rows)

/-- The weekly branch of the trend step: compare the two most recent week
keys when at least two exist. -/
def weeklyTrendCalc (rows : List Row) : Option String × Option String :=
  let byWeek := aggregateByWeek rows
  let weekKeys := jsSortStrings (alKeys byWeek)
  if 2 ≤ weekKeys.length then
    let lastKey := weekKeys.getLastD ""
    let prevKey := weekKeys.dropLast.getLastD ""
    let lastRev := ((alGet byWeek lastKey).getD ⟨0, 0⟩).revenue
    let prevRev := ((alGet byWeek prevKey).getD ⟨0, 0⟩).revenue
    let growth := computeGrowth (.num lastRev) (.num prevRev)
    (some ("Revenue is " ++ growth.text ++ " this week vs last week ($" ++
        formatCurrency lastRev ++ " vs $" ++ formatCurrency prevRev ++ ")."),
     if growth.direction = .up then
       some "Keep up the momentum; consider restocking best sellers."
     else if growth.direction = .down then
       some "Check if stock ran out or demand dipped; promote top products."
     else none)
  else (none, none)

/-- The monthly branch of the trend step: compare the two most recent month
keys (the guard that at least two exist is in trendStep). -/
def monthlyTrendCalc (byMonth : List (String × Agg)) (monthKeys : List String) :
    Option String × Option String :=
  let lastKey := monthKeys.getLastD ""
  let prevKey := monthKeys.dropLast.getLastD ""
  let lastRev := ((alGet byMonth lastKey).getD ⟨0, 0⟩).revenue
  let prevRev := ((alGet byMonth prevKey).getD ⟨0, 0⟩).revenue
  let growth := computeGrowth (.num lastRev) (.num prevRev)
  let lastLabel := monthNameOfKey lastKey
  let prevLabel := monthNameOfKey prevKey
  (some ("Revenue is " ++ growth.text ++ " in " ++ lastLabel ++ " vs " ++
      prevLabel ++ " ($" ++ formatCurrency lastRev ++ " vs $" ++
      formatCurrency prevRev ++ ")."),
   if growth.direction = .up then
     some "Keep stock levels healthy for your best sellers."
   else if growth.direction = .down then
     some "Focus on promoting your top 3 products or run a small promotion."
   else none)

/-- Embeds the trend step (the trendFinding and trendAction variables):
the weekly branch requires useWeekly together with zero month keys, the
monthly branch requires at least two month keys. -/
def trendStep (rows : List Row) : Option String × Option String :=
  let byMonth := aggregateByMonth rows
  let monthKeys := jsSortStrings (alKeys byMonth)
  let useWeekly := monthKeys.length < 2
  if useWeekly ∧ monthKeys.length = 0 then weeklyTrendCalc rows
  else if 2 ≤ monthKeys.length then monthlyTrendCalc byMonth monthKeys
  else (none, none)

/-- Embeds the top-products step: the top-3-by-revenue finding plus restock
action whenever any product exists, and the top-3-by-units finding when the
total revenue is positive. -/
def topProductsBlock (rows : List Row) : List String × List String :=
  let totalRevenue := totalRevenueOf rows
  let byProduct := groupByProduct rows
  let byRevenue := jsSortBy (fun x y : ProdAgg => decide (y.revenue ≤ x.revenue)) byProduct
  let byQty := jsSortBy (fun x y : ProdAgg => decide (y.quantity ≤ x.quantity)) byProduct
  let top3Revenue := byRevenue.take 3
  let top3Qty := byQty.take 3
  let part1 :=
    match top3Revenue with
    | [] => (([] : List String), ([] : List String))
    | p :: _ =>
      (["Top 3 products by revenue: " ++
          String.intercalate ", " (top3Revenue.map (fun p2 : ProdAgg => p2.product)) ++ "."],
       ["Restock and promote: " ++ p.product ++ "."])
  let part2 := if top3Qty.length ≠ 0 ∧ 0 < totalRevenue then
      ["Top 3 products by units sold: " ++
        String.intercalate ", " (top3Qty.map (fun p2 : ProdAgg => p2.product)) ++ "."]
    else []
  (part1.1 ++ part2, part1.2)

/-- Embeds the volume-revenue mismatch step: the first product in aggregate
order with unit share at least 15, revenue share below 5 and positive
revenue. -/
def volumeMismatchBlock (rows : List Row) : List String × List String :=
  let totalRevenue := totalRevenueOf rows
  let totalQuantity := totalQuantityOf rows
  let byProduct := groupByProduct rows
  match byProduct.find? (fun p =>
      let revShare := if 0 < totalRevenue then p.revenue / totalRevenue * 100 else 0
      let qtyShare := if 0 < totalQuantity then p.quantity / totalQuantity * 100 else 0
      decide (15 ≤ qtyShare ∧ revShare < 5 ∧ 0 < p.revenue)) with
  | none => ([], [])
  | some p =>
    let revShare := if 0 < totalRevenue then p.revenue / totalRevenue * 100 else 0
    let qtyShare := if 0 < totalQuantity then p.quantity / totalQuantity * 100 else 0
    ([p.product ++ " sells a lot (" ++ toString (jsRoundQ qtyShare) ++
        "% of units) but brings in only " ++ toString (jsRoundQ revShare) ++
        "% of revenue."],
     ["Review price or bundles for " ++ p.product ++
        ", you might be able to earn more per unit."])

/-- Embeds the category-leader step. -/
def categoryLeaderBlock (rows : List Row) : List String × List String :=
  let byCategory := groupByCategory rows
  match jsSortBy (fun x y : CatAgg => decide (y.revenue ≤ x.revenue)) byCategory with
  | [] => ([], [])
  | topCat :: _ =>
    ([topCat.category ++ " is your top category ($" ++
        formatCurrency topCat.revenue ++ " revenue)."],
     ["Focus on category \"" ++ topCat.category ++ "\", it drives the most revenue."])

/-- The per-category-per-month revenue totals keyed by
category __ YYYY-MM. -/
def catMonthMapOf (rows : List Row) : List (String × ℚ) :=
  rows.foldl
    (fun m r =>
      match parseDate r.date with
      | none => m
      | some parsed =>
        let key := normCat r.category ++ "__" ++ monthKeyOf parsed
        alSet m key ((alGet m key).getD 0 + getRevenue r))
    []

/-- Embeds the category growth and decline step: only with at least two
month keys; the fastest-growing category (strict improvement of the growth
percentage, last above prev) and the declining one (strict decrease, last
below prev, emitted only below -10). The -Infinity and Infinity sentinels of
the source are modelled by the none accumulator. -/
def categoryGrowthBlock (rows : List Row) : List String × List String :=
  let byMonth := aggregateByMonth rows
  let monthKeys := jsSortStrings (alKeys byMonth)
  if 2 ≤ monthKeys.length then
    let lastKey := monthKeys.getLastD ""
    let prevKey := monthKeys.dropLast.getLastD ""
    let catMonthMap := catMonthMapOf rows
    let cats := uniq ((groupByCategory rows).map (fun c => c.category))
    let scan := cats.foldl
      (fun (acc : Option (String × ℚ) × Option (String × ℚ)) cat =>
        let last := (alGet catMonthMap (cat ++ "__" ++ lastKey)).getD 0
        let prev := (alGet catMonthMap (cat ++ "__" ++ prevKey)).getD 0
        if 0 < prev then
          let g := (last - prev) / prev * 100
          let fastBetter := match acc.1 with
            | none => true
            | some pr => decide (pr.2 < g)
          let acc1 := if fastBetter = true ∧ prev < last then some (cat, g) else acc.1
          let declBetter := match acc.2 with
            | none => true
            | some pr => decide (g < pr.2)
          let acc2 := if declBetter = true ∧ last < prev then some (cat, g) else acc.2
          (acc1, acc2)
        else acc)
      (none, none)
    let fastPart :=
      match scan.1 with
      | none => (([] : List String), ([] : List String))
      | some pr =>
        ([pr.1 ++ " is your fastest-growing category (up " ++
            toString (jsRoundQ pr.2) ++ "% vs last period)."],
         ["Promote " ++ pr.1 ++ " — it is growing."])
    let declPart :=
      match scan.2 with
      | none => (([] : List String), ([] : List String))
      | some pr =>
        if pr.2 < -10 then
          ([pr.1 ++ " revenue is down " ++ toString (jsRoundQ |pr.2|) ++
              "% vs last period."],
           ["Check why " ++ pr.1 ++ " is declining — restock or run a promo."])
        else ([], [])
    (fastPart.1 ++ declPart.1, fastPart.2 ++ declPart.2)
  else ([], [])

/-- Embeds the concentration-risk step, returning its findings, actions and
warnings. -/
def concentrationBlock (rows : List Row) : List String × List String × List String :=
  let totalRevenue := totalRevenueOf rows
  let byRevenue := byRevenueOf rows
  let top3Revenue := byRevenue.take 3
  if 0 < totalRevenue ∧ byRevenue.length ≠ 0 then
    let top1Rev := match top3Revenue with
      | [] => (0 : ℚ)
      | p :: _ => p.revenue
    let top3Rev := (top3Revenue.take 3).foldl (fun s p => s + p.revenue) 0
    let pct1 := jsRoundQ (top1Rev / totalRevenue * 100)
    let pct3 := jsRoundQ (top3Rev / totalRevenue * 100)
    let f := [toString pct1 ++ "% of revenue comes from your top product; " ++
      toString pct3 ++ "% from the top 3."]
    if CONCENTRATION_WARN_PCT ≤ (pct3 : ℚ) then
      (f, ["Try to grow sales of other products so one slow month does not hurt too much."],
       ["Over " ++ toString pct3 ++
          "% of revenue depends on 3 products. Consider diversifying to reduce risk."])
    else (f, [], [])
  else ([], [], [])

/-- The per-product set of periods (month keys or week keys) in which the
product sold. -/
def productPeriodsOf (rows : List Row) (useWeekly : Bool) :
    List (String × List String) :=
  rows.foldl
    (fun m r =>
      match parseDate r.date with
      | none => m
      | some parsed =>
        let periodKey := if useWeekly then parsed.weekKey else monthKeyOf parsed
        let name := productNameOf r
        let st := (alGet m name).getD []
        alSet m name (if periodKey ∈ st then st else st ++ [periodKey]))
    []

/-- Embeds the steady-demand step: with at least two periods overall, the
first product present in at least min(3, periodCount) periods. -/
def steadyDemandBlock (rows : List Row) : List String × List String :=
  let monthKeys := jsSortStrings (alKeys (aggregateByMonth rows))
  let useWeekly := monthKeys.length < 2
  let productPeriods := productPeriodsOf rows useWeekly
  let periodCount := if useWeekly then
      (uniq (rows.filterMap (fun r => (parseDate r.date).map (fun p => p.weekKey)))).length
    else monthKeys.length
  if 2 ≤ periodCount then
    let consistent :=
      (productPeriods.filter (fun pr => decide (min 3 periodCount ≤ pr.2.length))).map
        Prod.fst
    match consistent with
    | [] => ([], [])
    | name :: _ =>
      ([name ++ " sells in many periods — steady demand."],
       ["Keep " ++ name ++ " in stock; reorder before you run out."])
  else ([], [])

/-- The per-product-per-period revenue totals keyed by product __ period. -/
def byProdPeriodOf (rows : List Row) (useWeekly : Bool) : List (String × ℚ) :=
  rows.foldl
    (fun m r =>
      match parseDate r.date with
      | none => m
      | some parsed =>
        let periodKey := if useWeekly then parsed.weekKey else monthKeyOf parsed
        let key := productNameOf r ++ "__" ++ periodKey
        alSet m key ((alGet m key).getD 0 + getRevenue r))
    []

/-- Embeds the recent-spike step: the first product whose revenue in the
most recent period reaches 1.5 times its per-period average. -/
def recentSpikeBlock (rows : List Row) : List String × List String :=
  let monthKeys := jsSortStrings (alKeys (aggregateByMonth rows))
  let useWeekly := monthKeys.length < 2
  if 2 ≤ monthKeys.length ∨ (useWeekly ∧ 2 ≤ (alKeys (aggregateByWeek rows)).length) then
    let byProdPeriod := byProdPeriodOf rows useWeekly
    let weekKeys := jsSortStrings (alKeys (aggregateByWeek rows))
    let productPeriods := productPeriodsOf rows useWeekly
    let byProduct := groupByProduct rows
    let lastPeriod : Option String :=
      if 2 ≤ monthKeys.length then some (monthKeys.getLastD "")
      else if weekKeys.length ≠ 0 then some (weekKeys.getLastD "") else none
    match lastPeriod with
    | none => ([], [])
    | some lp =>
      match byProduct.find? (fun p =>
          let lastRev := (alGet byProdPeriod (p.product ++ "__" ++ lp)).getD 0
          let periods : Nat := if useWeekly then
              ((alGet productPeriods p.product).getD []).length
            else monthKeys.length
          let avgRev := if 0 < periods then p.revenue / (periods : ℚ) else 0
          decide (0 < avgRev ∧ avgRev * (3/2) ≤ lastRev)) with
      | none => ([], [])
      | some p =>
        ([p.product ++ " had a recent spike in sales — might need extra stock."],
         ["Restock " ++ p.product ++ " to avoid running out."])
  else ([], [])

/-- Embeds the seasonality step: revenue per weekday and per calendar month;
the best weekday (with action) needs three distinct weekdays, the best month
(finding only) three distinct months. -/
def seasonalityBlock (rows : List Row) : List String × List String :=
  let scan := rows.foldl
    (fun (acc : List (Nat × ℚ) × List (Nat × ℚ)) r =>
      match parseDate r.date with
      | none => acc
      | some parsed =>
        let rev := getRevenue r
        (alSet acc.1 parsed.dayOfWeek ((alGet acc.1 parsed.dayOfWeek).getD 0 + rev),
         alSet acc.2 parsed.month ((alGet acc.2 parsed.month).getD 0 + rev)))
    ([], [])
  let dayPart := if 3 ≤ scan.1.length then
      match jsSortBy (fun x y : Nat × ℚ => decide (y.2 ≤ x.2)) scan.1 with
      | [] => (([] : List String), ([] : List String))
      | best :: _ =>
        let dayName := DAY_NAMES.getD best.1 "undefined"
        (["Your best day for sales is " ++ dayName ++ "."],
         ["Schedule promotions or extra stock for " ++ dayName ++ "s."])
    else ([], [])
  let monthPart := if 3 ≤ scan.2.length then
      match jsSortBy (fun x y : Nat × ℚ => decide (y.2 ≤ x.2)) scan.2 with
      | [] => []
      | best :: _ =>
        ["Your best month for sales is " ++ MONTH_NAMES.getD (best.1 - 1) "undefined" ++ "."]
    else []
  (dayPart.1 ++ monthPart, dayPart.2)

/-- The period-value sequence handed to detectAnomalies: monthly totals
labeled by month name when at least two month keys exist, else weekly totals
labeled by week key, sorted by key. -/
def periodValuesOf (rows : List Row) : List (String × ℚ) :=
  let byMonth := aggregateByMonth rows
  let monthKeys := jsSortStrings (alKeys byMonth)
  if 2 ≤ monthKeys.length then
    monthKeys.map (fun k => (monthNameOfKey k, ((alGet byMonth k).getD ⟨0, 0⟩).revenue))
  else
    (jsSortBy (fun x y : String × Agg => strLE x.1 y.1) (aggregateByWeek rows)).map
      (fun kv => ("Week " ++ kv.1, kv.2.revenue))

/-- Embeds the anomaly step: spikes become findings, drops become
warnings. -/
def anomaliesBlock (rows : List Row) : List String × List String :=
  let anomalies := detectAnomalies
    ((periodValuesOf rows).map (fun pv => (pv.1, JSVal.num pv.2)))
  (anomalies.filterMap (fun a =>
      match a.type with
      | .spike => some ("Unusual revenue spike in " ++ a.period ++ " ($" ++
          formatCurrency a.value ++ " vs avg $" ++ formatCurrency a.average ++
          "). Check for bulk orders or data errors.")
      | .drop => none),
   anomalies.filterMap (fun a =>
      match a.type with
      | .drop => some ("Revenue dropped in " ++ a.period ++ ". Confirm if real or a data issue.")
      | .spike => none))

/-- The singleton or empty list of an optional finding or action. -/
def optToList : Option String → List String
  | none => []
  | some s => [s]

/-- The three insight lists in push order, before deduplication and
truncation. Each step block recomputes the aggregates it reads; the source
computes them once up front, which yields the same values because every
helper is a pure function of rows. -/
def rawInsights (rows : List Row) : List String × List String × List String :=
  let dq := dataQualityWarnings rows
  let trend := trendStep rows
  let top := topProductsBlock rows
  let vol := volumeMismatchBlock rows
  let catl := categoryLeaderBlock rows
  let catg := categoryGrowthBlock rows
  let conc := concentrationBlock rows
  let steady := steadyDemandBlock rows
  let spike := recentSpikeBlock rows
  let seas := seasonalityBlock rows
  let anom := anomaliesBlock rows
  (optToList trend.1 ++ top.1 ++ vol.1 ++ catl.1 ++ catg.1 ++ conc.1 ++
     steady.1 ++ spike.1 ++ seas.1 ++ anom.1,
   optToList trend.2 ++ top.2 ++ vol.2 ++ catl.2 ++ catg.2 ++ conc.2.1 ++
     steady.2 ++ spike.2 ++ seas.2,
   dq ++ conc.2.2 ++ anom.2)

/-- The result record of generateInsights. -/
structure Insights where
  findings : List String
  actions : List String
  warnings : List String
deriving DecidableEq, Repr

/-- Embeds generateInsights: the minimum-rows gate, the rule pipeline, then
per-list deduplication and the caps of 6 findings and 5 actions. -/
def generateInsights (rows : List Row) : Insights :=
  if rows.length < MIN_ROWS_FOR_INSIGHTS then ⟨[], [], []⟩
  else
    let raw := rawInsights rows
    ⟨(uniq raw.1).take 6, (uniq raw.2.1).take 5, uniq raw.2.2⟩

/-- First-occurrence-preserving deduplication written as a filter of later
duplicates: the reference form of the finalize step the spec describes. It
is proved equal to the Set-based uniq of the source below. -/
def dedupFirst [DecidableEq α] : List α → List α
  | [] => []
  | x :: xs => x :: (dedupFirst xs).filter (fun y => decide (y ≠ x))

/-- The trend step as it would read with the weekly branch deleted; used to
state that the weekly branch of the source is dead code. -/
def monthlyTrendOnly (rows : List Row) : Option String × Option String :=
  let byMonth := aggregateByMonth rows
  let monthKeys := jsSortStrings (alKeys byMonth)
  if 2 ≤ monthKeys.length then monthlyTrendCalc byMonth monthKeys
  else (none, none)

/-- The coercion the spec describes for field access: the numeric value of
Number(v) when that is finite, otherwise 0. -/
def numberOrZero (v : JSVal) : ℚ :=
  match toNumber v with
  | .num n => n
  | _ => 0

/-- Two-digit decimal rendering of a value below 100, used to state the
round-trip property over generated date strings. -/
def fmt2 (n : Nat) : List Char := [digitChar (n / 10), digitChar (n % 10)]

/-- Four-digit decimal rendering of a value below 10000. -/
def fmt4 (n : Nat) : List Char :=
  [digitChar (n / 1000), digitChar (n / 100 % 10), digitChar (n / 10 % 10),
   digitChar (n % 10)]

/-- The DD-MM-YYYY string of a calendar date. -/
def fmtDDMMYYYY (y m d : Nat) : String :=
  String.mk (fmt2 d ++ '-' :: fmt2 m ++ '-' :: fmt4 y)

/-- The YYYY-MM-DD string of a calendar date. -/
def fmtYYYYMMDD (y m d : Nat) : String :=
  String.mk (fmt4 y ++ '-' :: fmt2 m ++ '-' :: fmt2 d)

/-- Modelled from the spec wording: a valid calendar date of the proleptic
Gregorian calendar, the reading of "valid calendar date" in the round-trip
property. -/
def validCalendarDate (y m d : Nat) : Bool :=
  1 ≤ m ∧ m ≤ 12 ∧ 1 ≤ d ∧ d ≤ daysInMonth y m

/-- A concrete sales row: explicit date, product, a fixed category, units
and price, no explicit revenue. -/
def sampleRow (d p : String) (u pr : ℚ) : Row :=
  { date := d, product := some p, category := some "X",
    units := .num u, quantity := .undef, revenue := .undef, price := .num pr }

/-- Three rows within a single month (March 2025) spread over three distinct
weeks (three consecutive Mondays): one distinct month key, three distinct
week keys. -/
def c4rows : List Row :=
  [sampleRow "03-03-2025" "A" 1 10,
   sampleRow "10-03-2025" "B" 2 10,
   sampleRow "17-03-2025" "C" 3 10]

/-- The pointwise classification of one period entry, given the mean and
the population variance of the filtered values: a spike record, a drop
record, or nothing (non-finite values are skipped). The scan loop of
detectAnomalies is proved extensionally equal to a filterMap of this
function. -/
def anomalyClassify (avg variance : ℚ) (e : String × JSVal) : Option Anomaly :=
  match e.2 with
  | .num v =>
    if spikePred avg variance v then
      some ⟨e.1, v, avg, .spike, "Unusual spike in " ++ e.1⟩
    else if dropPred avg variance v then
      some ⟨e.1, v, avg, .drop, "Unusual drop in " ++ e.1⟩
    else none
  | _ => none

/-- The period-value sequence of the anomaly unit test: three flat months
and one spike. -/
def c6pv : List (String × JSVal) :=
  [("Jan", .num 100), ("Feb", .num 100), ("Mar", .num 100), ("Apr", .num 500)]

/-! Helper lemmas about the container models. -/

theorem alSet_ne_nil [DecidableEq κ] (m : List (κ × α)) (k : κ) (v : α) :
    alSet m k v ≠ [] := by
  cases m with
  | nil => simp [alSet]
  | cons h t =>
    simp only [alSet]
    split <;> simp

theorem length_insertStable (le : α → α → Bool) (a : α) (l : List α) :
    (insertStable le a l).length = l.length + 1 := by
  induction l with
  | nil => rfl
  | cons b t ih =>
    simp only [insertStable]
    split <;> simp [ih]

theorem length_jsSortBy (le : α → α → Bool) (l : List α) :
    (jsSortBy le l).length = l.length := by
  suffices h : ∀ init : List α,
      (l.foldl (fun acc a => insertStable le a acc) init).length =
        init.length + l.length by
    simpa using h []
  induction l with
  | nil => intro init; simp
  | cons b t ih =>
    intro init
    simp only [List.foldl_cons]
    rw [ih (insertStable le b init), length_insertStable, List.length_cons]
    omega

theorem uniqGo_eq_nil_iff [DecidableEq α] (seen : List α) (l : List α) :
    uniqGo seen l = [] ↔ ∀ x ∈ l, x ∈ seen := by
  induction l generalizing seen with
  | nil => simp [uniqGo]
  | cons a t ih =>
    simp only [uniqGo]
    split
    next h => simp [ih, h]
    next h => simp [h]

theorem uniq_eq_nil_iff [DecidableEq α] (l : List α) : uniq l = [] ↔ l = [] := by
  rw [uniq, uniqGo_eq_nil_iff]
  simp [List.eq_nil_iff_forall_not_mem]

theorem uniqGo_eq_filter [DecidableEq α] (seen : List α) (l : List α) :
    uniqGo seen l = (dedupFirst l).filter (fun x => decide (x ∉ seen)) := by
  induction l generalizing seen with
  | nil => simp [uniqGo, dedupFirst]
  | cons a t ih =>
    simp only [uniqGo, dedupFirst]
    split
    next h =>
      rw [ih, List.filter_cons]
      have hd : (decide (a ∉ seen)) = false := by simp [h]
      rw [hd]
      simp only [List.filter_filter]
      congr 1
      funext x
      by_cases hx : x = a
      · subst hx; simp [h]
      · simp [hx]
    next h =>
      rw [ih, List.filter_cons]
      have hd : (decide (a ∉ seen)) = true := by simp [h]
      rw [hd]
      simp only [List.filter_filter]
      congr 2
      funext x
      by_cases hx : x = a
      · subst hx; simp
      · simp [hx]

theorem uniq_eq_dedupFirst [DecidableEq α] (l : List α) : uniq l = dedupFirst l := by
  rw [uniq, uniqGo_eq_filter]
  apply List.filter_eq_self.mpr
  intro x _
  simp

theorem dedupFirst_sublist [DecidableEq α] (l : List α) :
    (dedupFirst l).Sublist l := by
  induction l with
  | nil => simp [dedupFirst]
  | cons a t ih =>
    simp only [dedupFirst]
    exact List.Sublist.cons₂ a (List.Sublist.trans (List.filter_sublist _) ih)

theorem mem_dedupFirst [DecidableEq α] {x : α} {l : List α} :
    x ∈ dedupFirst l ↔ x ∈ l := by
  induction l with
  | nil => simp [dedupFirst]
  | cons a t ih =>
    simp only [dedupFirst, List.mem_cons, List.mem_filter]
    by_cases hx : x = a
    · simp [hx]
    · simp [hx, ih]

theorem dedupFirst_nodup [DecidableEq α] (l : List α) : (dedupFirst l).Nodup := by
  induction l with
  | nil => simp [dedupFirst]
  | cons a t ih =>
    simp only [dedupFirst]
    refine List.Nodup.cons ?_ (List.Nodup.filter _ ih)
    intro hmem
    rcases List.mem_filter.mp hmem with ⟨_, hne⟩
    simp at hne

/-! Helper lemmas about the aggregation passes. -/

theorem aggStep_eq_nil_iff (keyOf : ParsedDate → String) (m : List (String × Agg))
    (row : Row) :
    aggStep keyOf m row = [] ↔ (m = [] ∧ parseDate row.date = none) := by
  cases hp : parseDate row.date with
  | none => simp [aggStep, hp]
  | some p => simp [aggStep, hp, alSet_ne_nil]

theorem foldl_aggStep_eq_nil_iff (keyOf : ParsedDate → String) (rows : List Row) :
    ∀ m, rows.foldl (aggStep keyOf) m = [] ↔
      (m = [] ∧ ∀ r ∈ rows, parseDate r.date = none) := by
  induction rows with
  | nil => intro m; simp
  | cons r t ih =>
    intro m
    rw [List.foldl_cons, ih, aggStep_eq_nil_iff]
    constructor
    · rintro ⟨⟨hm, hr⟩, ht⟩
      exact ⟨hm, by simpa [hr] using ht⟩
    · rintro ⟨hm, hall⟩
      have hr := hall r (by simp)
      exact ⟨⟨hm, hr⟩, fun x hx => hall x (by simp [hx])⟩

theorem aggregateBy_eq_nil_iff (keyOf : ParsedDate → String) (rows : List Row) :
    aggregateBy keyOf rows = [] ↔ ∀ r ∈ rows, parseDate r.date = none := by
  rw [aggregateBy, foldl_aggStep_eq_nil_iff]
  simp

theorem aggregateByWeek_nil_of_month_nil (rows : List Row)
    (h : aggregateByMonth rows = []) : aggregateByWeek rows = [] := by
  rw [aggregateByWeek, aggregateBy_eq_nil_iff]
  rw [aggregateByMonth, aggregateBy_eq_nil_iff] at h
  exact h

theorem prodStep_ne_nil (m : List (String × ProdAgg)) (row : Row) :
    prodStep m row ≠ [] := by
  simp only [prodStep]
  exact alSet_ne_nil _ _ _

theorem foldl_prodStep_ne_nil (t : List Row) :
    ∀ m, m ≠ [] → t.foldl prodStep m ≠ [] := by
  induction t with
  | nil => intro m hm; simpa using hm
  | cons r s ih =>
    intro m _
    rw [List.foldl_cons]
    exact ih _ (prodStep_ne_nil m r)

theorem groupByProduct_ne_nil (rows : List Row) (h : rows ≠ []) :
    groupByProduct rows ≠ [] := by
  cases rows with
  | nil => exact absurd rfl h
  | cons r t =>
    rw [groupByProduct, List.foldl_cons]
    have hne := foldl_prodStep_ne_nil t (prodStep [] r) (prodStep_ne_nil [] r)
    simp only [alValues, ne_eq, List.map_eq_nil_iff]
    exact hne

/-! Helper lemmas about the trend step. -/

theorem weeklyTrendCalc_of_month_nil (rows : List Row)
    (h : aggregateByMonth rows = []) : weeklyTrendCalc rows = (none, none) := by
  have hw := aggregateByWeek_nil_of_month_nil rows h
  simp [weeklyTrendCalc, hw, alKeys, jsSortStrings, jsSortBy]

theorem monthKeys_length (rows : List Row) :
    (jsSortStrings (alKeys (aggregateByMonth rows))).length =
      (aggregateByMonth rows).length := by
  rw [jsSortStrings, length_jsSortBy, alKeys, List.length_map]

theorem trendStep_eq_monthlyTrendOnly (rows : List Row) :
    trendStep rows = monthlyTrendOnly rows := by
  simp only [trendStep, monthlyTrendOnly]
  rcases hlen : (jsSortStrings (alKeys (aggregateByMonth rows))).length with _ | n
  · have hnil : aggregateByMonth rows = [] := by
      have := monthKeys_length rows
      rw [hlen] at this
      exact List.length_eq_zero.mp this.symm
    rw [weeklyTrendCalc_of_month_nil rows hnil]
    simp [hlen]
  · cases n with
    | zero => simp [hlen]
    | succ k => simp [hlen]

/-! The claim theorems for the trend granularity. -/

/-- C5: the weekly trend finding is unreachable. The weekly branch of the
trend step requires zero distinct month keys; every parsable row contributes
a month key and a week key alike, so zero month keys forces zero week keys
and the branch condition of at least two week keys can never hold: the trend
step always equals its weekly-branch-free form, and with no month aggregate
there is no week aggregate either. -/
theorem C5_weekly_trend_unreachable (rows : List Row) :
    trendStep rows = monthlyTrendOnly rows ∧
      (aggregateByMonth rows = [] → aggregateByWeek rows = []) ∧
      (aggregateByMonth rows = [] → weeklyTrendCalc rows = (none, none)) :=
  ⟨trendStep_eq_monthlyTrendOnly rows,
   aggregateByWeek_nil_of_month_nil rows,
   weeklyTrendCalc_of_month_nil rows⟩

/-- Witness for C5 at a concrete input with parsable dates. -/
theorem C5_weekly_trend_unreachable_witness :
    trendStep c4rows = monthlyTrendOnly c4rows ∧
      (aggregateByMonth c4rows = [] → aggregateByWeek c4rows = []) ∧
      (aggregateByMonth c4rows = [] → weeklyTrendCalc c4rows = (none, none)) :=
  C5_weekly_trend_unreachable c4rows

/-- C4 amended: with fewer than two distinct month keys the trend step emits
no finding and no action at all. The weekly fallback needs zero month keys,
which forces zero week keys; with exactly one month key neither branch
runs. -/
theorem C4_trend_amended (rows : List Row)
    (h : (jsSortStrings (alKeys (aggregateByMonth rows))).length < 2) :
    trendStep rows = (none, none) := by
  rw [trendStep_eq_monthlyTrendOnly]
  simp only [monthlyTrendOnly]
  rw [if_neg (by omega)]

/-- Witness for C4 amended at a concrete input with exactly one month
key. -/
theorem C4_trend_amended_witness :
    (jsSortStrings (alKeys (aggregateByMonth c4rows))).length < 2 ∧
      trendStep c4rows = (none, none) :=
  ⟨by decide, C4_trend_amended c4rows (by decide)⟩

unseal Rat.add Rat.sub Rat.mul Rat.inv in
/-- C4 counterexample: three rows inside March 2025 spread over three
distinct weeks give one distinct month key and three distinct week keys, so
the claim predicts a weekly finding comparing the two most recent weeks
(which would read: Revenue is up 50 percent this week vs last week, 30 vs 20
dollars) plus a stock action. The engine emits no trend finding or action at
all: the weekly fallback requires zero month keys. -/
theorem C4_trend_counterexample :
    (jsSortStrings (alKeys (aggregateByMonth c4rows))).length = 1
    ∧ (jsSortStrings (alKeys (aggregateByWeek c4rows))).length = 3
    ∧ trendStep c4rows = (none, none)
    ∧ generateInsights c4rows =
      ⟨["Top 3 products by revenue: C, B, A.",
        "Top 3 products by units sold: C, B, A.",
        "X is your top category ($60 revenue).",
        "50% of revenue comes from your top product; 100% from the top 3.",
        "Unusual revenue spike in Week 2025-03-17 ($30 vs avg $20). Check for bulk orders or data errors."],
       ["Restock and promote: C.",
        "Focus on category \"X\", it drives the most revenue.",
        "Try to grow sales of other products so one slow month does not hurt too much."],
       ["Over 100% of revenue depends on 3 products. Consider diversifying to reduce risk.",
        "Revenue dropped in Week 2025-03-03. Confirm if real or a data issue."]⟩
    ∧ "Revenue is up 50% this week vs last week ($30 vs $20)." ∉
        (generateInsights c4rows).findings := by
  decide

/-! Helper lemmas for the minimum-rows gate. -/

theorem topProductsBlock_fst_ne_nil (rows : List Row) (h : rows ≠ []) :
    (topProductsBlock rows).1 ≠ [] := by
  simp only [topProductsBlock]
  rcases h3 : (jsSortBy (fun x y : ProdAgg => decide (y.revenue ≤ x.revenue))
      (groupByProduct rows)).take 3 with _ | ⟨p, rest⟩
  · exfalso
    have hlen := length_jsSortBy
      (fun x y : ProdAgg => decide (y.revenue ≤ x.revenue)) (groupByProduct rows)
    rcases List.take_eq_nil_iff.mp h3 with h0 | h0
    · first
      | exact groupByProduct_ne_nil rows h
          (List.length_eq_zero.mp (by rw [← hlen, h0]; rfl))
      | simp at h0
    · first
      | exact groupByProduct_ne_nil rows h
          (List.length_eq_zero.mp (by rw [← hlen, h0]; rfl))
      | simp at h0
  · simp

theorem rawFindings_ne_nil (rows : List Row) (h : rows ≠ []) :
    (rawInsights rows).1 ≠ [] := by
  simp only [rawInsights]
  intro hnil
  simp only [List.append_eq_nil] at hnil
  exact topProductsBlock_fst_ne_nil rows h (by tauto)

theorem generateInsights_findings_ne_nil (rows : List Row)
    (h : MIN_ROWS_FOR_INSIGHTS ≤ rows.length) :
    (generateInsights rows).findings ≠ [] := by
  have hrows : rows ≠ [] := by
    intro hnil
    rw [hnil] at h
    simp [MIN_ROWS_FOR_INSIGHTS] at h
  have hne : ¬ rows.length < MIN_ROWS_FOR_INSIGHTS := by omega
  simp only [generateInsights, if_neg hne]
  intro htake
  rcases List.take_eq_nil_iff.mp htake with h0 | h0
  · simp at h0
  · exact rawFindings_ne_nil rows hrows ((uniq_eq_nil_iff _).mp h0)

/-- C1: the engine returns the all-empty result exactly when the
minimum-rows gate fails, and for every input passing the gate the findings
list is nonempty (the top-3-by-revenue finding is emitted unconditionally,
because every row contributes a product aggregate, with Unknown as the
fallback name). -/
theorem C1_min_rows_gate (rows : List Row) :
    (generateInsights rows = ⟨[], [], []⟩ ↔
      rows.length < MIN_ROWS_FOR_INSIGHTS)
    ∧ (MIN_ROWS_FOR_INSIGHTS ≤ rows.length →
      (generateInsights rows).findings ≠ []) := by
  refine ⟨⟨?_, ?_⟩, generateInsights_findings_ne_nil rows⟩
  · intro hempty
    by_contra hlt
    push_neg at hlt
    have hne := generateInsights_findings_ne_nil rows hlt
    rw [hempty] at hne
    exact hne rfl
  · intro hlt
    simp [generateInsights, hlt]

/-- Witness for C1 at a concrete three-row input. -/
theorem C1_min_rows_gate_witness :
    MIN_ROWS_FOR_INSIGHTS ≤ c4rows.length ∧
      (generateInsights c4rows).findings ≠ [] :=
  ⟨by decide, (C1_min_rows_gate c4rows).2 (by decide)⟩

/-- C9: for every input passing the gate, each output list is the
first-occurrence-preserving deduplication of the corresponding raw list,
findings are then truncated to 6 and actions to 5, warnings are never
truncated (every raw warning still occurs); consequently each list has no
duplicates, respects its cap, and is a sublist of the raw list in push
order. -/
theorem C9_dedupe_caps (rows : List Row)
    (h : MIN_ROWS_FOR_INSIGHTS ≤ rows.length) :
    (generateInsights rows).findings = (dedupFirst (rawInsights rows).1).take 6
    ∧ (generateInsights rows).actions = (dedupFirst (rawInsights rows).2.1).take 5
    ∧ (generateInsights rows).warnings = dedupFirst (rawInsights rows).2.2
    ∧ (generateInsights rows).findings.Nodup
    ∧ (generateInsights rows).actions.Nodup
    ∧ (generateInsights rows).warnings.Nodup
    ∧ (generateInsights rows).findings.length ≤ 6
    ∧ (generateInsights rows).actions.length ≤ 5
    ∧ (generateInsights rows).findings.Sublist (rawInsights rows).1
    ∧ (generateInsights rows).actions.Sublist (rawInsights rows).2.1
    ∧ (generateInsights rows).warnings.Sublist (rawInsights rows).2.2
    ∧ (∀ w ∈ (rawInsights rows).2.2, w ∈ (generateInsights rows).warnings) := by
  have hne : ¬ rows.length < MIN_ROWS_FOR_INSIGHTS := by omega
  have hout : generateInsights rows =
      ⟨(uniq (rawInsights rows).1).take 6,
       (uniq (rawInsights rows).2.1).take 5,
       uniq (rawInsights rows).2.2⟩ := by
    simp [generateInsights, hne]
  rw [hout]
  simp only [uniq_eq_dedupFirst]
  refine ⟨trivial, trivial, trivial, ?_, ?_, ?_, ?_, ?_, ?_, ?_, ?_, ?_⟩
  · exact List.Nodup.sublist (List.take_sublist _ _) (dedupFirst_nodup _)
  · exact List.Nodup.sublist (List.take_sublist _ _) (dedupFirst_nodup _)
  · exact dedupFirst_nodup _
  · exact List.length_take_le _ _
  · exact List.length_take_le _ _
  · exact List.Sublist.trans (List.take_sublist _ _) (dedupFirst_sublist _)
  · exact List.Sublist.trans (List.take_sublist _ _) (dedupFirst_sublist _)
  · exact dedupFirst_sublist _
  · intro w hw
    exact mem_dedupFirst.mpr hw

/-- Witness for C9 at a concrete three-row input. -/
theorem C9_dedupe_caps_witness :
    MIN_ROWS_FOR_INSIGHTS ≤ c4rows.length ∧
      (generateInsights c4rows).warnings = dedupFirst (rawInsights c4rows).2.2 :=
  ⟨by decide, (C9_dedupe_caps c4rows (by decide)).2.2.1⟩

/-! Field accessor claims. -/

/-- C8: getQuantity reads units, falls back to quantity when units is
absent (and, more precisely, whenever units is nullish), coerces with
Number and returns 0 for a non-finite result; getRevenue returns a finite
row.revenue unchanged, otherwise multiplies the resolved quantity by the
coerced price, and returns 0 when the coerced price is not finite. -/
theorem C8_field_accessors (row : Row) :
    (row.units.isNullish = true → getQuantity row = numberOrZero row.quantity)
    ∧ (row.units.isNullish = false → getQuantity row = numberOrZero row.units)
    ∧ (∀ q : ℚ, row.revenue = .num q → getRevenue row = q)
    ∧ (row.revenue.isFinite = false →
        (∀ p : ℚ, toNumber row.price = .num p →
          getRevenue row = getQuantity row * p)
        ∧ ((toNumber row.price).isFinite = false → getRevenue row = 0)) := by
  refine ⟨?_, ?_, ?_, ?_⟩
  · intro h
    simp only [getQuantity, numberOrZero, h, if_pos]
  · intro h
    simp only [getQuantity, numberOrZero, h]
    simp
  · intro q hq
    simp [getRevenue, hq, JSVal.isFinite, JSVal.finVal]
  · intro hfin
    constructor
    · intro p hp
      simp only [getRevenue, hfin]
      rw [hp]
      simp
    · intro hnp
      simp only [getRevenue, hfin]
      cases hp : toNumber row.price with
      | num p => rw [hp] at hnp; simp [JSVal.isFinite] at hnp
      | nan => simp [hp]
      | inf => simp [hp]
      | ninf => simp [hp]
      | null => simp [hp]
      | undef => simp [hp]

/-- Witness for C8 at a concrete row with present units and computed
revenue. -/
theorem C8_field_accessors_witness :
    ((sampleRow "03-03-2025" "A" 1 10).units.isNullish = false) ∧
      getQuantity (sampleRow "03-03-2025" "A" 1 10) =
        numberOrZero (sampleRow "03-03-2025" "A" 1 10).units :=
  ⟨by decide, (C8_field_accessors (sampleRow "03-03-2025" "A" 1 10)).2.1 (by decide)⟩

/-- C10: the units-to-quantity fallback is nullish, not falsy: a present
units of 0 wins over quantity (returning 0), while a null units falls back
to quantity; in general the quantity field is irrelevant whenever units is
not nullish. -/
theorem C10_zero_units_not_falsy :
    getQuantity { date := "", product := none, category := none,
                  units := .num 0, quantity := .num 5,
                  revenue := .undef, price := .undef } = 0
    ∧ getQuantity { date := "", product := none, category := none,
                    units := .null, quantity := .num 5,
                    revenue := .undef, price := .undef } = 5
    ∧ (∀ row : Row, row.units.isNullish = false → ∀ v : JSVal,
        getQuantity { row with quantity := v } = getQuantity row)
    ∧ (∀ row : Row, row.units = .null →
        getQuantity row = numberOrZero row.quantity) := by
  refine ⟨by decide, by decide, ?_, ?_⟩
  · intro row h v
    simp only [getQuantity, h]
    simp
  · intro row h
    simp [getQuantity, numberOrZero, h, JSVal.isNullish]

/-! The week-key claim. -/

/-- C2 (code bug): parseDate assigns a Sunday to the following Monday, not
to the Monday of its own Monday-start week. 2025-03-16 is a Sunday
(dayOfWeek 0); the claim and the ISO comment of the source require weekKey
2025-03-10, the Monday at most six days earlier, but the code computes
date - dayOfWeek + 1 = date + 1 and yields 2025-03-17, the day after the
date itself, as the day counts confirm. -/
theorem C2_sunday_weekKey_bug :
    (parseDate "16-03-2025").map (fun r => r.dayOfWeek) = some 0
    ∧ (parseDate "16-03-2025").map (fun r => r.weekKey) = some "2025-03-17"
    ∧ dayNumber ⟨2025, 3, 17⟩ = dayNumber ⟨2025, 3, 16⟩ + 1
    ∧ jsGetDay ⟨2025, 3, 10⟩ = 1
    ∧ dayNumber ⟨2025, 3, 10⟩ + 6 = dayNumber ⟨2025, 3, 16⟩ := by
  decide


/-! The growth claim. -/

theorem computeGrowth_finite (c p : ℚ) (hp : p ≠ 0) :
    computeGrowth (.num c) (.num p) =
      (let pct := jsRoundQ ((c - p) / p * 100)
       if 0 < pct then ⟨.num (pct : ℚ), .up, "up " ++ toString pct ++ "%"⟩
       else if pct < 0 then
         ⟨.num (pct : ℚ), .down, "down " ++ toString (-pct) ++ "%"⟩
       else ⟨.num 0, .flat, "flat"⟩) := by
  simp only [computeGrowth]
  rw [if_neg (by simp [JSVal.isFinite, hp])]
  have hsub : jsSub (JSVal.num c) (JSVal.num p) = .num (c - p) := rfl
  have hdiv : jsDiv (JSVal.num (c - p)) (JSVal.num p) = .num ((c - p) / p) := by
    simp [jsDiv, toNumber, hp]
  have hmul : jsMul (JSVal.num ((c - p) / p)) (JSVal.num 100) =
      .num ((c - p) / p * 100) := rfl
  rw [hsub, hdiv, hmul]
  set z := jsRoundQ ((c - p) / p * 100) with hz
  have hround : jsRound (JSVal.num ((c - p) / p * 100)) = .num (z : ℚ) := rfl
  rw [hround]
  have hgt : jsGtZero (JSVal.num (z : ℚ)) = decide (0 < z) := by
    simp [jsGtZero, toNumber]
  have hlt : jsLtZero (JSVal.num (z : ℚ)) = decide (z < 0) := by
    simp [jsLtZero, toNumber]
  have hstr : jsValStr (JSVal.num (z : ℚ)) = toString z := by
    simp [jsValStr, numStr, Rat.den_intCast, Rat.num_intCast]
  rcases lt_trichotomy 0 z with h0 | h0 | h0
  · rw [if_pos (by simp only [hgt, decide_eq_true_eq]; omega), if_pos h0, hstr]
  · rw [if_neg (by simp only [hgt, decide_eq_true_eq]; omega),
        if_neg (by simp only [hlt, decide_eq_true_eq]; omega),
        if_neg (by omega), if_neg (by omega)]
  · have habs : jsAbs (JSVal.num (z : ℚ)) = .num ((-z : ℤ) : ℚ) := by
      simp only [jsAbs, toNumber]
      congr 1
      rw [abs_of_neg (show (z : ℚ) < 0 from by exact_mod_cast h0)]
      push_cast
      ring
    rw [if_neg (by simp only [hgt, decide_eq_true_eq]; omega),
        if_pos (by simp only [hlt, decide_eq_true_eq]; omega),
        if_neg (by omega), if_pos h0, habs]
    have hstr2 : jsValStr (JSVal.num ((-z : ℤ) : ℚ)) = toString (-z) := by
      simp [jsValStr, numStr, Rat.den_intCast, Rat.num_intCast]
    rw [hstr2]

theorem jsRoundQ_eq_roundHalfAway (x : ℚ)
    (h : ¬(x < 0 ∧ ∃ k : ℤ, x = (k : ℚ) + 1/2)) :
    jsRoundQ x = roundHalfAwayFromZero x := by
  unfold jsRoundQ roundHalfAwayFromZero
  by_cases h0 : 0 ≤ x
  · rw [if_pos h0]
  · rw [if_neg h0]
    push_neg at h
    have hx : x < 0 := lt_of_not_ge h0
    have hk := h hx
    set n := ⌊x + 1/2⌋ with hn
    have h1 : (n : ℚ) ≤ x + 1/2 := Int.floor_le _
    have h2 : x + 1/2 < n + 1 := Int.lt_floor_add_one _
    have hne : x + 1/2 ≠ (n : ℚ) := by
      intro he
      apply hk (n - 1)
      push_cast
      linarith
    have h1s : (n : ℚ) < x + 1/2 := lt_of_le_of_ne h1 (Ne.symm hne)
    have hrw : -x + 1/2 = 1 - (x + 1/2) := by ring
    rw [hrw]
    have hfl : ⌊(1 : ℚ) - (x + 1/2)⌋ = -n := by
      rw [Int.floor_eq_iff]
      constructor
      · push_cast
        linarith
      · push_cast
        linarith
    rw [hfl]
    ring

theorem jsRoundQ_negative_half (k : ℤ) (hx : ((k : ℚ) + 1/2) < 0) :
    jsRoundQ ((k : ℚ) + 1/2) = roundHalfAwayFromZero ((k : ℚ) + 1/2) + 1 := by
  unfold jsRoundQ roundHalfAwayFromZero
  rw [if_neg (by linarith)]
  have h1 : ⌊(k : ℚ) + 1/2 + 1/2⌋ = k + 1 := by
    have he : (k : ℚ) + 1/2 + 1/2 = ((k + 1 : ℤ) : ℚ) := by push_cast; ring
    rw [he, Int.floor_intCast]
  have h2 : ⌊-((k : ℚ) + 1/2) + 1/2⌋ = -k := by
    have he : -((k : ℚ) + 1/2) + 1/2 = ((-k : ℤ) : ℚ) := by push_cast; ring
    rw [he, Int.floor_intCast]
  rw [h1, h2]
  ring

/-- C3 amended: for finite current and finite nonzero previous, the
percentage is Math.round of ((current - previous) / previous) * 100, which
is the floor of x + 1/2: it agrees with rounding half away from zero except
when the exact percentage is a negative half-integer, where it returns the
value one above (the smaller magnitude); direction and text follow the sign
of the rounded percentage. When previous is not finite or zero the result
is pct 100 going up for positive current and pct 0 flat otherwise. -/
theorem C3_growth_amended (c p : ℚ) (hp : p ≠ 0) :
    (computeGrowth (.num c) (.num p) =
      (let pct := jsRoundQ ((c - p) / p * 100)
       if 0 < pct then ⟨.num (pct : ℚ), .up, "up " ++ toString pct ++ "%"⟩
       else if pct < 0 then
         ⟨.num (pct : ℚ), .down, "down " ++ toString (-pct) ++ "%"⟩
       else ⟨.num 0, .flat, "flat"⟩))
    ∧ (¬((c - p) / p * 100 < 0 ∧ ∃ k : ℤ, (c - p) / p * 100 = (k : ℚ) + 1/2) →
        jsRoundQ ((c - p) / p * 100) = roundHalfAwayFromZero ((c - p) / p * 100))
    ∧ (∀ k : ℤ, (c - p) / p * 100 = (k : ℚ) + 1/2 → (c - p) / p * 100 < 0 →
        jsRoundQ ((c - p) / p * 100) =
          roundHalfAwayFromZero ((c - p) / p * 100) + 1)
    ∧ (∀ v : JSVal, v.isFinite = false ∨ v = .num 0 →
        computeGrowth (.num c) v =
          if 0 < c then ⟨.num 100, .up, "up from no prior sales"⟩
          else ⟨.num 0, .flat, "no change"⟩) := by
  refine ⟨computeGrowth_finite c p hp, jsRoundQ_eq_roundHalfAway _, ?_, ?_⟩
  · intro k hk hneg
    rw [hk] at hneg ⊢
    exact jsRoundQ_negative_half k hneg
  · intro v hv
    have hcond : ¬ v.isFinite = true ∨ v = JSVal.num 0 := by
      rcases hv with h | h
      · exact Or.inl (by simp [h])
      · exact Or.inr h
    simp only [computeGrowth, if_pos hcond]
    have hgt : jsGtZero (JSVal.num c) = decide (0 < c) := by
      simp [jsGtZero, toNumber]
    by_cases h0 : 0 < c
    · rw [if_pos (by simp [hgt, h0]), if_pos h0]
    · rw [if_neg (by simp [hgt, h0]), if_neg h0]

/-- Witness for C3 amended at the test pair (120, 100). -/
theorem C3_growth_amended_witness :
    (100 : ℚ) ≠ 0 ∧
      computeGrowth (.num (120 : ℚ)) (.num (100 : ℚ)) =
        (let pct := jsRoundQ (((120 : ℚ) - 100) / 100 * 100)
         if 0 < pct then ⟨.num (pct : ℚ), .up, "up " ++ toString pct ++ "%"⟩
         else if pct < 0 then
           ⟨.num (pct : ℚ), .down, "down " ++ toString (-pct) ++ "%"⟩
         else ⟨.num 0, .flat, "flat"⟩) :=
  ⟨by norm_num, (C3_growth_amended 120 100 (by norm_num)).1⟩

unseal Rat.add Rat.sub Rat.mul Rat.inv in
/-- C3 counterexample: at current 199 and previous 200 the exact percentage
is minus one half; rounding half away from zero gives -1 (direction down),
but the engine uses Math.round, returning 0 and the flat direction. -/
theorem C3_growth_counterexample :
    computeGrowth (.num 199) (.num 200) = ⟨.num 0, .flat, "flat"⟩
    ∧ roundHalfAwayFromZero (((199 : ℚ) - 200) / 200 * 100) = -1
    ∧ jsRoundQ (((199 : ℚ) - 200) / 200 * 100) = 0 := by
  decide



/-! The anomaly-detection claim. -/

theorem spike_drop_exclusive (avg variance v : ℚ) :
    ¬(spikePred avg variance v = true ∧ dropPred avg variance v = true) := by
  rintro ⟨hs, hd⟩
  simp only [spikePred, dropPred, decide_eq_true_eq] at hs hd
  exact absurd hs.1 (not_lt.mpr hd.1.le)

theorem detectAnomalies_foldl (avg variance : ℚ) (l : List (String × JSVal)) :
    ∀ init : List Anomaly,
      (l.foldl (fun results pv =>
        match pv.2 with
        | JSVal.num value =>
          let r1 := if spikePred avg variance value then
              results ++ [⟨pv.1, value, avg, .spike, "Unusual spike in " ++ pv.1⟩]
            else results
          if dropPred avg variance value then
            r1 ++ [⟨pv.1, value, avg, .drop, "Unusual drop in " ++ pv.1⟩]
          else r1
        | _ => results) init) =
      init ++ l.filterMap (anomalyClassify avg variance) := by
  induction l with
  | nil => intro init; simp
  | cons e t ih =>
    intro init
    rw [List.foldl_cons, ih, List.filterMap_cons]
    cases he : e.2 with
    | num v =>
      simp only [anomalyClassify, he]
      by_cases hs : spikePred avg variance v = true
      · have hd : dropPred avg variance v = false := by
          by_contra hcon
          exact spike_drop_exclusive avg variance v
            ⟨hs, by simpa using hcon⟩
        simp [hs, hd]
      · by_cases hd : dropPred avg variance v = true
        · simp [hs, hd]
        · simp [hs, hd]
    | nan => simp [anomalyClassify, he]
    | inf => simp [anomalyClassify, he]
    | ninf => simp [anomalyClassify, he]
    | null => simp [anomalyClassify, he]
    | undef => simp [anomalyClassify, he]

/-- C6: detectAnomalies filters to finite nonnegative values and returns
nothing below two of them; otherwise, with avg the population mean and
variance the population variance (divide by the count) of the filtered
values, the result is exactly the pointwise classification of every entry:
spike when the value exceeds avg and the relative change reaches 1/2 or the
z-score reaches 2, drop symmetrically below; no value can be both, and a
value equal to the average is never flagged. -/
theorem C6_anomaly_detection (pv : List (String × JSVal)) :
    (((pv.map Prod.snd).filterMap (fun v => match v with
        | JSVal.num q => if 0 ≤ q then some q else none
        | _ => none)).length < 2 → detectAnomalies pv = [])
    ∧ (∀ vals avg variance,
        vals = (pv.map Prod.snd).filterMap (fun v => match v with
          | JSVal.num q => if 0 ≤ q then some q else none
          | _ => none) →
        avg = vals.sum / (vals.length : ℚ) →
        variance = ((vals.map (fun v => (v - avg) ^ 2)).sum) / (vals.length : ℚ) →
        2 ≤ vals.length →
        detectAnomalies pv = pv.filterMap (anomalyClassify avg variance))
    ∧ (∀ avg variance v : ℚ,
        ¬(spikePred avg variance v = true ∧ dropPred avg variance v = true))
    ∧ (∀ avg variance : ℚ,
        spikePred avg variance avg = false ∧ dropPred avg variance avg = false) := by
  refine ⟨?_, ?_, spike_drop_exclusive, ?_⟩
  · intro h
    simp only [detectAnomalies]
    rw [if_pos h]
  · rintro vals avg variance hvals havg hvar h2
    subst hvals
    simp only [detectAnomalies]
    rw [if_neg (by omega)]
    have havg2 : (((pv.map Prod.snd).filterMap (fun v => match v with
        | JSVal.num q => if 0 ≤ q then some q else none
        | _ => none)).foldl (· + ·) 0) /
          ((((pv.map Prod.snd).filterMap (fun v => match v with
            | JSVal.num q => if 0 ≤ q then some q else none
            | _ => none)).length : ℕ) : ℚ) = avg := by
      rw [havg, List.sum_eq_foldl]
    rw [havg2]
    have hvar2 : (((pv.map Prod.snd).filterMap (fun v => match v with
        | JSVal.num q => if 0 ≤ q then some q else none
        | _ => none)).foldl (fun acc v => acc + (v - avg) ^ 2) 0) /
          ((((pv.map Prod.snd).filterMap (fun v => match v with
            | JSVal.num q => if 0 ≤ q then some q else none
            | _ => none)).length : ℕ) : ℚ) = variance := by
      rw [hvar, List.sum_eq_foldl, List.foldl_map]
    rw [hvar2]
    simpa using detectAnomalies_foldl avg variance pv []
  · intro avg variance
    constructor
    · simp [spikePred]
    · simp [dropPred]

unseal Rat.add Rat.sub Rat.mul Rat.inv in
/-- Witness for C6 at the unit-test sequence: mean 200, population variance
30000; the three flat months are drops (relative change exactly 1/2) and
the last month is a spike. -/
theorem C6_anomaly_detection_witness :
    detectAnomalies c6pv = c6pv.filterMap (anomalyClassify 200 30000) :=
  (C6_anomaly_detection c6pv).2.1 [100, 100, 100, 500] 200 30000
    (by decide) (by decide) (by decide) (by decide)

/-! The date-parsing claim. -/

theorem toDigit_le9 {ch : Char} {k : Nat} (h : toDigit ch = some k) : k ≤ 9 := by
  simp only [toDigit] at h
  split at h
  · next hb =>
    injection h with h
    omega
  · exact absurd h (by simp)

theorem toDigit_digitChar {k : Nat} (h : k ≤ 9) :
    toDigit (digitChar k) = some k := by
  interval_cases k <;> decide

theorem digitChar_not_ws {k : Nat} (h : k ≤ 9) :
    isJSWhitespace (digitChar k) = false := by
  interval_cases k <;> decide

theorem digitChar_ne_dash {k : Nat} (h : k ≤ 9) : digitChar k ≠ '-' := by
  interval_cases k <;> decide

theorem dropWhile_eq_self_of (p : Char → Bool) (l : List Char)
    (h : ∀ c ∈ l, p c = false) : l.dropWhile p = l := by
  cases l with
  | nil => rfl
  | cons c t => simp [List.dropWhile_cons, h c (by simp)]

theorem jsTrim_eq_self (l : List Char)
    (h : ∀ c ∈ l, isJSWhitespace c = false) : jsTrim l = l := by
  unfold jsTrim
  rw [dropWhile_eq_self_of _ _ h]
  rw [dropWhile_eq_self_of _ _ (fun c hc => h c (List.mem_reverse.mp hc))]
  exact List.reverse_reverse l

theorem daysInMonth_le_31 (y m : Nat) : daysInMonth y m ≤ 31 := by
  unfold daysInMonth
  split <;> first | omega | (split <;> omega)

theorem validateDMY_sound (y m d : Nat) (r : ParsedDate)
    (h : validateDMY y m d = some r) :
    r.year = y ∧ r.month = m ∧ r.day = d ∧ 1 ≤ m ∧ m ≤ 12 ∧ 1 ≤ d ∧
      d ≤ daysInMonth (effYear y) m := by
  simp only [validateDMY] at h
  split at h
  · exact absurd h (by simp)
  · next hb =>
    push_neg at hb
    obtain ⟨hm1, hm2, hd1, hd2⟩ := hb
    split at h
    · next hc =>
      injection h with h
      subst h
      refine ⟨rfl, rfl, rfl, hm1, hm2, hd1, ?_⟩
      by_contra hdim
      push_neg at hdim
      have hm' : m - 1 + 1 = m := by omega
      simp only [mkJSDate, hm'] at hc
      rw [if_neg (by omega)] at hc
      by_cases h12 : m = 12
      · have : daysInMonth (effYear y) m = 31 := by
          subst h12; simp [daysInMonth]
        omega
      · rw [if_neg h12] at hc
        have := hc.2
        simp at this
        omega
    · exact absurd h (by simp)

theorem validateDMY_complete (y m d : Nat) (hm1 : 1 ≤ m) (hm2 : m ≤ 12)
    (hd1 : 1 ≤ d) (hd2 : d ≤ daysInMonth (effYear y) m) :
    ∃ r, validateDMY y m d = some r ∧ r.year = y ∧ r.month = m ∧ r.day = d := by
  have hd31 : d ≤ 31 := le_trans hd2 (daysInMonth_le_31 _ _)
  have hm' : m - 1 + 1 = m := by omega
  simp only [validateDMY]
  rw [if_neg (by omega)]
  have hcd : mkJSDate y (m - 1) d = ⟨effYear y, m, d⟩ := by
    simp only [mkJSDate, hm']
    rw [if_pos hd2]
  rw [hcd]
  rw [if_pos ⟨rfl, rfl⟩]
  exact ⟨_, rfl, rfl, rfl, rfl⟩

theorem matchDDMMYYYY_fmt (y m d : Nat) (hy : y ≤ 9999) (hm : m ≤ 99)
    (hd : d ≤ 99) :
    matchDDMMYYYY (fmt2 d ++ '-' :: fmt2 m ++ '-' :: fmt4 y) = some (d, m, y) := by
  simp only [fmt2, fmt4, List.cons_append, List.nil_append, matchDDMMYYYY]
  rw [if_pos (by simp)]
  rw [toDigit_digitChar (show d / 10 ≤ 9 by omega),
      toDigit_digitChar (show d % 10 ≤ 9 by omega),
      toDigit_digitChar (show m / 10 ≤ 9 by omega),
      toDigit_digitChar (show m % 10 ≤ 9 by omega),
      toDigit_digitChar (show y / 1000 ≤ 9 by omega),
      toDigit_digitChar (show y / 100 % 10 ≤ 9 by omega),
      toDigit_digitChar (show y / 10 % 10 ≤ 9 by omega),
      toDigit_digitChar (show y % 10 ≤ 9 by omega)]
  simp only [Option.some.injEq, Prod.mk.injEq]
  refine ⟨by omega, by omega, by omega⟩

theorem matchYYYYMMDD_fmt (y m d : Nat) (hy : y ≤ 9999) (hm : m ≤ 99)
    (hd : d ≤ 99) :
    matchYYYYMMDD (fmt4 y ++ '-' :: fmt2 m ++ '-' :: fmt2 d) = some (y, m, d) := by
  simp only [fmt2, fmt4, List.cons_append, List.nil_append, matchYYYYMMDD]
  rw [if_pos (by simp)]
  rw [toDigit_digitChar (show y / 1000 ≤ 9 by omega),
      toDigit_digitChar (show y / 100 % 10 ≤ 9 by omega),
      toDigit_digitChar (show y / 10 % 10 ≤ 9 by omega),
      toDigit_digitChar (show y % 10 ≤ 9 by omega),
      toDigit_digitChar (show m / 10 ≤ 9 by omega),
      toDigit_digitChar (show m % 10 ≤ 9 by omega),
      toDigit_digitChar (show d / 10 ≤ 9 by omega),
      toDigit_digitChar (show d % 10 ≤ 9 by omega)]
  simp only [Option.some.injEq, Prod.mk.injEq]
  refine ⟨by omega, by omega, by omega⟩

theorem matchDDMMYYYY_iso_none (y m d : Nat) (hy : y ≤ 9999) :
    matchDDMMYYYY (fmt4 y ++ '-' :: fmt2 m ++ '-' :: fmt2 d) = none := by
  simp only [fmt2, fmt4, List.cons_append, List.nil_append, matchDDMMYYYY]
  rw [if_neg]
  rintro ⟨h1, -⟩
  exact digitChar_ne_dash (show y / 10 % 10 ≤ 9 by omega) h1

theorem fmtDDMM_not_ws (y m d : Nat) (hy : y ≤ 9999) (hm : m ≤ 99) (hd : d ≤ 99) :
    ∀ c ∈ fmt2 d ++ '-' :: fmt2 m ++ '-' :: fmt4 y, isJSWhitespace c = false := by
  intro c hc
  simp only [fmt2, fmt4, List.cons_append, List.nil_append, List.mem_cons,
    List.not_mem_nil, or_false] at hc
  rcases hc with h | h | h | h | h | h | h | h | h | h <;> subst h <;>
    first
    | exact digitChar_not_ws (by omega)
    | decide

theorem fmtISO_not_ws (y m d : Nat) (hy : y ≤ 9999) (hm : m ≤ 99) (hd : d ≤ 99) :
    ∀ c ∈ fmt4 y ++ '-' :: fmt2 m ++ '-' :: fmt2 d, isJSWhitespace c = false := by
  intro c hc
  simp only [fmt2, fmt4, List.cons_append, List.nil_append, List.mem_cons,
    List.not_mem_nil, or_false] at hc
  rcases hc with h | h | h | h | h | h | h | h | h | h <;> subst h <;>
    first
    | exact digitChar_not_ws (by omega)
    | decide

theorem parseDate_sound (s : String) (r : ParsedDate) (h : parseDate s = some r) :
    1 ≤ r.month ∧ r.month ≤ 12 ∧ 1 ≤ r.day ∧
      r.day ≤ daysInMonth (effYear r.year) r.month ∧
      (matchDDMMYYYY (jsTrim s.data) = some (r.day, r.month, r.year) ∨
        matchYYYYMMDD (jsTrim s.data) = some (r.year, r.month, r.day)) := by
  simp only [parseDate] at h
  split at h
  · exact absurd h (by simp)
  · split at h
    · next d m y heq =>
      obtain ⟨h1, h2, h3, h4, h5, h6, h7⟩ := validateDMY_sound y m d r h
      subst h1; subst h2; subst h3
      exact ⟨h4, h5, h6, h7, Or.inl heq⟩
    · next hnone =>
      split at h
      · next y m d heq =>
        obtain ⟨h1, h2, h3, h4, h5, h6, h7⟩ := validateDMY_sound y m d r h
        subst h1; subst h2; subst h3
        exact ⟨h4, h5, h6, h7, Or.inr heq⟩
      · exact absurd h (by simp)

theorem parseDate_complete_ddmm (y m d : Nat) (hy : y ≤ 9999) (hm1 : 1 ≤ m)
    (hm2 : m ≤ 12) (hd1 : 1 ≤ d) (hd2 : d ≤ daysInMonth (effYear y) m) :
    ∃ r, parseDate (fmtDDMMYYYY y m d) = some r ∧
      r.year = y ∧ r.month = m ∧ r.day = d := by
  have hd31 : d ≤ 31 := le_trans hd2 (daysInMonth_le_31 _ _)
  have hsne : fmtDDMMYYYY y m d ≠ "" := by
    intro hcon
    have := congrArg String.data hcon
    simp [fmtDDMMYYYY, fmt2] at this
  simp only [parseDate]
  rw [if_neg hsne]
  have hdata : (fmtDDMMYYYY y m d).data = fmt2 d ++ '-' :: fmt2 m ++ '-' :: fmt4 y := rfl
  rw [hdata, jsTrim_eq_self _ (fmtDDMM_not_ws y m d hy (by omega) (by omega)),
    matchDDMMYYYY_fmt y m d hy (by omega) (by omega)]
  exact validateDMY_complete y m d hm1 hm2 hd1 hd2

theorem parseDate_complete_iso (y m d : Nat) (hy : y ≤ 9999) (hm1 : 1 ≤ m)
    (hm2 : m ≤ 12) (hd1 : 1 ≤ d) (hd2 : d ≤ daysInMonth (effYear y) m) :
    ∃ r, parseDate (fmtYYYYMMDD y m d) = some r ∧
      r.year = y ∧ r.month = m ∧ r.day = d := by
  have hd31 : d ≤ 31 := le_trans hd2 (daysInMonth_le_31 _ _)
  have hsne : fmtYYYYMMDD y m d ≠ "" := by
    intro hcon
    have := congrArg String.data hcon
    simp [fmtYYYYMMDD, fmt4] at this
  simp only [parseDate]
  rw [if_neg hsne]
  have hdata : (fmtYYYYMMDD y m d).data = fmt4 y ++ '-' :: fmt2 m ++ '-' :: fmt2 d := rfl
  rw [hdata, jsTrim_eq_self _ (fmtISO_not_ws y m d hy (by omega) (by omega)),
    matchDDMMYYYY_iso_none y m d hy,
    matchYYYYMMDD_fmt y m d hy (by omega) (by omega)]
  exact validateDMY_complete y m d hm1 hm2 hd1 hd2

/-- C7 amended: parseDate is total and returns a result exactly for trimmed
strings in one of the two digit formats whose month is 1 to 12, whose day is
at least 1 and at most the length of that month in the effective year of the
JS Date constructor (1900 + year for the years 0 to 99); on success the
returned year, month and day are the parsed components. In particular every
valid calendar date with year 1 to 9999 round-trips in both formats; the
sole divergence from the original claim is 29-02-0000, where the effective
year 1900 is not a leap year although year 0 is. -/
theorem C7_parseDate_amended :
    (∀ s r, parseDate s = some r →
      1 ≤ r.month ∧ r.month ≤ 12 ∧ 1 ≤ r.day ∧
        r.day ≤ daysInMonth (effYear r.year) r.month ∧
        (matchDDMMYYYY (jsTrim s.data) = some (r.day, r.month, r.year) ∨
          matchYYYYMMDD (jsTrim s.data) = some (r.year, r.month, r.day)))
    ∧ (∀ y m d, y ≤ 9999 → 1 ≤ m → m ≤ 12 → 1 ≤ d →
        d ≤ daysInMonth (effYear y) m →
        (∃ r, parseDate (fmtDDMMYYYY y m d) = some r ∧
          r.year = y ∧ r.month = m ∧ r.day = d) ∧
        (∃ r, parseDate (fmtYYYYMMDD y m d) = some r ∧
          r.year = y ∧ r.month = m ∧ r.day = d))
    ∧ (∀ y m d, 1 ≤ y → validCalendarDate y m d = true →
        daysInMonth y m = daysInMonth (effYear y) m) := by
  refine ⟨parseDate_sound, ?_, ?_⟩
  · intro y m d hy hm1 hm2 hd1 hd2
    exact ⟨parseDate_complete_ddmm y m d hy hm1 hm2 hd1 hd2,
      parseDate_complete_iso y m d hy hm1 hm2 hd1 hd2⟩
  · intro y m d hy hv
    by_cases hy99 : y < 100
    · have h19 : effYear y = 1900 + y := by simp [effYear, hy99]
      rw [h19]
      have hleap : isLeap y = isLeap (1900 + y) := by
        interval_cases y <;> decide
      unfold daysInMonth
      split <;> simp [hleap]
    · simp [effYear, hy99]

/-- Witness for C7 amended: the test date 15 March 2025 round-trips in both
formats. -/
theorem C7_parseDate_amended_witness :
    (∃ r, parseDate (fmtDDMMYYYY 2025 3 15) = some r ∧
      r.year = 2025 ∧ r.month = 3 ∧ r.day = 15) ∧
    (∃ r, parseDate (fmtYYYYMMDD 2025 3 15) = some r ∧
      r.year = 2025 ∧ r.month = 3 ∧ r.day = 15) :=
  C7_parseDate_amended.2.1 2025 3 15 (by decide) (by decide) (by decide)
    (by decide) (by decide)

/-- C7 counterexample: 0000-02-29 is a valid proleptic calendar date (year 0
is a leap year) yet both renderings are rejected, because the JS Date
constructor maps year 0 to 1900, which is not a leap year, so the calendar
round-trip check fails. -/
theorem C7_parseDate_counterexample :
    validCalendarDate 0 2 29 = true
    ∧ parseDate "29-02-0000" = none
    ∧ parseDate "0000-02-29" = none
    ∧ effYear 0 = 1900 ∧ isLeap 0 = true ∧ isLeap 1900 = false := by
  decide

/-- Witness for C10: quantity is ignored for a row whose units field is a
present number. -/
theorem C10_zero_units_not_falsy_witness :
    ((sampleRow "" "A" 1 10).units.isNullish = false) ∧
      getQuantity { sampleRow "" "A" 1 10 with quantity := JSVal.num 7 } =
        getQuantity (sampleRow "" "A" 1 10) :=
  ⟨by decide, C10_zero_units_not_falsy.2.2.1 (sampleRow "" "A" 1 10) (by decide) (JSVal.num 7)⟩

end Sales
